import Mathlib

/-!
Verification of `orttraining/orttraining/python/training/training_agent.py`.

The Python `TrainingAgent` class is a thin wrapper around two collaborators
that live in native code (`onnxruntime.InferenceSession` and
`onnxruntime.capi._pybind_state.TrainingAgent`, imported as `C_TrainingAgent`).
The wrapper itself is embedded here line by line; the native collaborators are
modelled from the specification, since their code is not part of this
repository's Python source.
-/

/-- Native tensor values handed across the boundary by the native layer
(`ortvalue` objects in the Python source). -/
abbrev NativeValue := Nat

/-- The Python-level `OrtValue` wrapper from
`onnxruntime.capi.onnxruntime_inference_collection`: the agent wraps each
native result value as `OrtValue(ortvalue)`. -/
structure OrtValue where
  ortvalue : NativeValue
deriving DecidableEq

/-- Per-call run options (`onnxruntime.RunOptions`); opaque pass-through,
not interpreted by the agent. -/
abbrev RunOptions := Unit

/-- Session options (`onnxruntime.SessionOptions`); opaque to the agent. -/
abbrev SessionOptions := Unit

/-- Modelled from the spec: an execution-provider selector, "each either a
bare name or a name paired with a provider-specific options mapping" (spec
section 6).  In the Python source these are the entries of the `providers`
list, either strings or `(name, options dict)` tuples. -/
inductive ProviderSpec
  | bare (n : String)
  | withOptions (n : String) (opts : List (String × String))
deriving DecidableEq

/-- The provider name of a selector. -/
def ProviderSpec.providerName : ProviderSpec → String
  | .bare n => n
  | .withOptions n _ => n

/-- Whether a selector carries inline per-provider options. -/
def ProviderSpec.hasInlineOptions : ProviderSpec → Bool
  | .bare _ => false
  | .withOptions _ _ => true

/-- Modelled from the spec: the loaded computation graph, split into forward
and backward subgraphs, each a first segment plus a list of further segments.
A segment is the ordered list of output values declared at the yield point
(or graph end) that terminates it; an empty `forwardRest` means the forward
subgraph contains no yield operator (spec sections 3 and 4.2). -/
structure Model where
  forwardFirst : List NativeValue
  forwardRest : List (List NativeValue)
  backwardFirst : List NativeValue
  backwardRest : List (List NativeValue)
deriving DecidableEq

/-- Modelled from the spec: a model source that either loads to a model or
fails to load (spec section 7, construction error taxonomy).  Stands for the
`path_or_bytes` argument of the Python constructor. -/
inductive ModelSource
  | valid (m : Model)
  | corrupt
deriving DecidableEq

/-- Modelled from the spec: the environment the session resolves execution
providers against (spec section 6, provider precedence). -/
structure SessionEnv where
  availableProviders : List String
deriving DecidableEq

/-- Errors fatal to construction (spec section 7). -/
inductive ConstructionError
  | modelLoadFailure
  | providerResolutionFailure
  | configurationError
deriving DecidableEq

/-- Errors surfaced by the native agent on suspend/resume calls
(spec section 7). -/
inductive AgentError
  | invalidRun
  | valueCountMismatch
deriving DecidableEq

/-- Modelled from the spec: the `onnxruntime.InferenceSession` collaborator
after successful construction — it "owns the loaded graph, execution
providers, and the mechanism to execute a subgraph region" (spec section 2). -/
structure InferenceSession where
  model : Model
  providers : List String
deriving DecidableEq

/-- Modelled from the spec: construction of the `onnxruntime.InferenceSession`
collaborator, which is not part of this repository's Python source.  Supplying
both inline per-provider options and a parallel `provider_options` list is a
configuration error; an unresolvable requested provider and a model that fails
to load are likewise fatal (spec sections 6 and 7). -/
def InferenceSession.create (env : SessionEnv) (path_or_bytes : ModelSource)
    (_session_options : SessionOptions) (providers : List ProviderSpec)
    (provider_options : Option (List (List (String × String)))) :
    Except ConstructionError InferenceSession :=
  if providers.any ProviderSpec.hasInlineOptions && provider_options.isSome then
    .error .configurationError
  else if !(providers.all fun p => env.availableProviders.contains p.providerName) then
    .error .providerResolutionFailure
  else
    match path_or_bytes with
    | .corrupt => .error .modelLoadFailure
    | .valid m => .ok { model := m, providers := providers.map ProviderSpec.providerName }

/-- The Python `IOBinding` collaborator, holding the session it was
constructed from (`IOBinding(self._inference_session)` in the source). -/
structure IOBinding where
  session : InferenceSession
deriving DecidableEq

/-- A run identifier: opaque, unique per active run, and tied to the agent
that issued it (spec sections 3 and 8: resuming an unrelated agent's run
identifier fails). -/
structure RunId where
  agent : Nat
  idx : Nat
deriving DecidableEq

/-- Direction of a run: forward or backward subgraph execution. -/
inductive Direction
  | fwd
  | bwd
deriving DecidableEq

/-- The suspended state of a live run: its current continuation token, the
slots yielded at the suspension point (whose count a resume must match), the
remaining segments, and the run's direction. -/
structure RunState where
  dir : Direction
  token : Nat
  yielded : List NativeValue
  remaining : List (List NativeValue)
deriving DecidableEq

/-- A registered run is either suspended at a yield point or completed
(terminal: no further resume possible). -/
inductive RunEntry
  | suspended (rs : RunState)
  | completed
deriving DecidableEq

/-- Look up a run entry by identifier (first binding wins). -/
def findRun : List (RunId × RunEntry) → RunId → Option RunEntry
  | [], _ => none
  | (k, v) :: rest, rid => if k = rid then some v else findRun rest rid

/-- Replace the first binding of a run identifier. -/
def setRun : List (RunId × RunEntry) → RunId → RunEntry → List (RunId × RunEntry)
  | [], _, _ => []
  | (k, v) :: rest, rid, e =>
    if k = rid then (k, e) :: rest else (k, v) :: setRun rest rid e

/-- Modelled from the spec: the native execution agent
(`onnxruntime.capi._pybind_state.TrainingAgent`, bound as `C_TrainingAgent`
in the Python source), whose implementation is not in this repository.  It
owns the run-identity and token lifecycle over the session's execution
context (spec sections 3 and 4). -/
structure C_TrainingAgent where
  agentId : Nat
  model : Model
  runs : List (RunId × RunEntry)
  nextRunId : Nat
  nextToken : Nat
deriving DecidableEq

/-- Modelled from the spec: native agent construction from a session's
execution context (`C_TrainingAgent(self._inference_session._sess)` in the
Python source). -/
def C_TrainingAgent.create (aid : Nat) (sess : InferenceSession) : C_TrainingAgent :=
  { agentId := aid, model := sess.model, runs := [], nextRunId := 0, nextToken := 0 }

/-- Modelled from the spec: the native `run_forward` primitive.  Executes the
forward subgraph until the first yield operator (or graph end when there is
none), returns the declared outputs of the point reached, a freshly allocated
run identifier and a continuation token, and registers run-scoped state —
`completed` when no yield remains, else `suspended` (spec section 4.2). -/
def C_TrainingAgent.run_forward (s : C_TrainingAgent) (_iobinding : IOBinding)
    (_run_options : RunOptions) :
    (List NativeValue × RunId × Nat) × C_TrainingAgent :=
  let rid : RunId := { agent := s.agentId, idx := s.nextRunId }
  let tok := s.nextToken
  let out := s.model.forwardFirst
  let entry :=
    if s.model.forwardRest.isEmpty then RunEntry.completed
    else RunEntry.suspended
      { dir := .fwd, token := tok, yielded := out, remaining := s.model.forwardRest }
  ((out, rid, tok),
    { s with runs := (rid, entry) :: s.runs, nextRunId := s.nextRunId + 1,
             nextToken := tok + 1 })

/-- Modelled from the spec: the shared resumption contract of the native
resume primitives (spec sections 4.3 and 4.5).  Restores the suspended run of
the given direction, substitutes the supplied values (whose count must match
the yielded slots), and continues to the next yield or completion; an unknown,
completed, or wrong-direction run identifier is an invalid-run error. -/
def C_TrainingAgent.resume (s : C_TrainingAgent) (dir : Direction)
    (inputs : List NativeValue) (rid : RunId) :
    Except AgentError ((List NativeValue × RunId × Nat) × C_TrainingAgent) :=
  match findRun s.runs rid with
  | none => .error .invalidRun
  | some .completed => .error .invalidRun
  | some (.suspended rs) =>
    if rs.dir ≠ dir then .error .invalidRun
    else if inputs.length ≠ rs.yielded.length then .error .valueCountMismatch
    else
      match rs.remaining with
      | [] => .error .invalidRun
      | out :: rest =>
        let tok := s.nextToken
        let entry :=
          if rest.isEmpty then RunEntry.completed
          else RunEntry.suspended
            { dir := dir, token := tok, yielded := out, remaining := rest }
        .ok ((out, rid, tok),
          { s with runs := setRun s.runs rid entry, nextToken := tok + 1 })

/-- Modelled from the spec: the native `resume_forward` primitive
(spec section 4.3). -/
def C_TrainingAgent.resume_forward (s : C_TrainingAgent)
    (inputs : List NativeValue) (rid : RunId) :
    Except AgentError ((List NativeValue × RunId × Nat) × C_TrainingAgent) :=
  s.resume .fwd inputs rid

/-- Modelled from the spec: the native backward-resume primitive — "identical
resumption contract to `resume_forward` but applied to a backward run's
suspended state" (spec section 4.5). -/
def C_TrainingAgent.resume_backward (s : C_TrainingAgent)
    (inputs : List NativeValue) (rid : RunId) :
    Except AgentError ((List NativeValue × RunId × Nat) × C_TrainingAgent) :=
  s.resume .bwd inputs rid

/-- Modelled from the spec: the native `run_backward` gradient-seeding
primitive.  Requires the referenced run to be suspended at a forward yield;
seeds backward execution with the supplied gradients and runs to the first
backward yield or completion, allocating a fresh backward run
(spec section 4.4). -/
def C_TrainingAgent.run_backward (s : C_TrainingAgent)
    (backward_output_grads : List NativeValue) (rid : RunId) :
    Except AgentError ((List NativeValue × RunId × Nat) × C_TrainingAgent) :=
  match findRun s.runs rid with
  | none => .error .invalidRun
  | some .completed => .error .invalidRun
  | some (.suspended rs) =>
    if rs.dir ≠ Direction.fwd then .error .invalidRun
    else if backward_output_grads.length ≠ rs.yielded.length then .error .valueCountMismatch
    else
      let brid : RunId := { agent := s.agentId, idx := s.nextRunId }
      let tok := s.nextToken
      let out := s.model.backwardFirst
      let entry :=
        if s.model.backwardRest.isEmpty then RunEntry.completed
        else RunEntry.suspended
          { dir := .bwd, token := tok, yielded := out, remaining := s.model.backwardRest }
      .ok ((out, brid, tok),
        { s with runs := (brid, entry) :: s.runs, nextRunId := s.nextRunId + 1,
                 nextToken := tok + 1 })

/-- The Python `TrainingAgent` object: its `_inference_session` field and its
`_training_agent` field, the latter an opaque handle to the native agent. -/
structure TrainingAgent where
  _inference_session : InferenceSession
  _training_agent : Nat
deriving DecidableEq

/-- A Python agent together with the native state its `_training_agent`
handle refers to; the wrapper methods mutate only the native state. -/
structure World where
  agent : TrainingAgent
  cstate : C_TrainingAgent
deriving DecidableEq

/-- `TrainingAgent.create_training_agent` from the source: builds the
inference session (construction errors propagate) and then the native agent
from that session's execution context; `__init__` delegates here, so agent
construction is all-or-nothing. -/
def TrainingAgent.create_training_agent (env : SessionEnv) (aid : Nat)
    (path_or_bytes : ModelSource) (session_options : SessionOptions)
    (providers : List ProviderSpec)
    (provider_options : Option (List (List (String × String)))) :
    Except ConstructionError World := do
  let sess ← InferenceSession.create env path_or_bytes session_options providers
    provider_options
  let cagent := C_TrainingAgent.create aid sess
  return { agent := { _inference_session := sess, _training_agent := aid }, cstate := cagent }

/-- `TrainingAgent.io_binding` from the source:
`return IOBinding(self._inference_session)`. -/
def World.io_binding (w : World) : IOBinding × World :=
  ({ session := w.agent._inference_session }, w)

/-- `TrainingAgent.run_forward` from the source: calls the native
`run_forward` and returns
`[OrtValue(ortvalue) for ortvalue in ortvalues], run_id, token_id`. -/
def World.run_forward (w : World) (iobinding : IOBinding)
    (run_options : RunOptions) : (List OrtValue × RunId × Nat) × World :=
  let r := w.cstate.run_forward iobinding run_options
  ((r.1.1.map OrtValue.mk, r.1.2.1, r.1.2.2), { w with cstate := r.2 })

/-- `TrainingAgent.resume_forward` from the source: calls the native
`resume_forward` with the caller's `resume_inputs` and `run_id` unchanged and
wraps each returned value as `OrtValue`. -/
def World.resume_forward (w : World) (resume_inputs : List NativeValue)
    (run_id : RunId) :
    Except AgentError ((List OrtValue × RunId × Nat) × World) :=
  match w.cstate.resume_forward resume_inputs run_id with
  | .error e => .error e
  | .ok r =>
    .ok ((r.1.1.map OrtValue.mk, r.1.2.1, r.1.2.2), { w with cstate := r.2 })

/-- `TrainingAgent.run_backward` from the source: calls the native
`run_backward` with the caller's `backward_output_grads` and `run_id`
unchanged and wraps each returned value as `OrtValue`. -/
def World.run_backward (w : World) (backward_output_grads : List NativeValue)
    (run_id : RunId) :
    Except AgentError ((List OrtValue × RunId × Nat) × World) :=
  match w.cstate.run_backward backward_output_grads run_id with
  | .error e => .error e
  | .ok r =>
    .ok ((r.1.1.map OrtValue.mk, r.1.2.1, r.1.2.2), { w with cstate := r.2 })

/-- `TrainingAgent.resume_backward` from the source.  Note: the source body is
`self._training_agent.run_backward(resume_inputs, run_id)` — it invokes the
native `run_backward` primitive, not a backward-resume primitive. -/
def World.resume_backward (w : World) (resume_inputs : List NativeValue)
    (run_id : RunId) :
    Except AgentError ((List OrtValue × RunId × Nat) × World) :=
  match w.cstate.run_backward resume_inputs run_id with
  | .error e => .error e
  | .ok r =>
    .ok ((r.1.1.map OrtValue.mk, r.1.2.1, r.1.2.2), { w with cstate := r.2 })

/-- Modelled from the spec: the `resume_backward` method as section 4.5
describes it — delegating to the backward-resume primitive of the native
agent, with the same wrapping as the other methods.  Used solely to compare
the source's behavior against the specified one. -/
def World.resume_backward_specified (w : World) (resume_inputs : List NativeValue)
    (run_id : RunId) :
    Except AgentError ((List OrtValue × RunId × Nat) × World) :=
  match w.cstate.resume_backward resume_inputs run_id with
  | .error e => .error e
  | .ok r =>
    .ok ((r.1.1.map OrtValue.mk, r.1.2.1, r.1.2.2), { w with cstate := r.2 })

/-- The four suspend/resume operations plus `io_binding`, as a single step
alphabet for stating lifetime invariants of the agent. -/
inductive AgentOp
  | runF (iobinding : IOBinding) (run_options : RunOptions)
  | resumeF (inputs : List NativeValue) (rid : RunId)
  | runB (grads : List NativeValue) (rid : RunId)
  | resumeB (inputs : List NativeValue) (rid : RunId)
  | ioBindingCall

/-- Apply one agent operation to the world, keeping the prior state when the
call raises (an error propagates to the caller without mutating the native
run table). -/
def World.applyOp (w : World) : AgentOp → World
  | .runF iob ro => (w.run_forward iob ro).2
  | .resumeF inputs rid =>
    match w.resume_forward inputs rid with
    | .ok r => r.2
    | .error _ => w
  | .runB grads rid =>
    match w.run_backward grads rid with
    | .ok r => r.2
    | .error _ => w
  | .resumeB inputs rid =>
    match w.resume_backward inputs rid with
    | .ok r => r.2
    | .error _ => w
  | .ioBindingCall => (w.io_binding).2

/-- Apply a sequence of agent operations in order. -/
def World.applyOps (w : World) (ops : List AgentOp) : World :=
  ops.foldl World.applyOp w

/-- Token bound for a run entry: a suspended run's continuation token was
issued before the agent's next fresh token. -/
def RunEntry.tokenLt : RunEntry → Nat → Prop
  | .suspended rs, n => rs.token < n
  | .completed, _ => True

/-- Well-formedness of the native agent state: every registered run belongs
to this agent, was allocated below the fresh-run counter, and (when
suspended) carries a token below the fresh-token counter. -/
def C_TrainingAgent.WF (s : C_TrainingAgent) : Prop :=
  ∀ p ∈ s.runs, p.1.agent = s.agentId ∧ p.1.idx < s.nextRunId ∧ p.2.tokenLt s.nextToken

/-- The declared output slots of the yield point a resume call on `rid`
would reach: the head of the suspended run's remaining segments. -/
def C_TrainingAgent.reachedOnResume (s : C_TrainingAgent) (rid : RunId) :
    Option (List NativeValue) :=
  match findRun s.runs rid with
  | some (.suspended rs) => rs.remaining.head?
  | _ => none

/-- The continuation token currently authorizing a resumption of run `rid`,
if that run is suspended. -/
def C_TrainingAgent.runToken (s : C_TrainingAgent) (rid : RunId) : Option Nat :=
  match findRun s.runs rid with
  | some (.suspended rs) => some rs.token
  | _ => none

instance : (e : RunEntry) → (n : Nat) → Decidable (e.tokenLt n)
  | .suspended rs, n => inferInstanceAs (Decidable (rs.token < n))
  | .completed, _ => .isTrue trivial

instance (s : C_TrainingAgent) : Decidable s.WF := by
  unfold C_TrainingAgent.WF
  infer_instance

/-- The payload of a successful native call, with a fallback for errors;
used to name concrete results in closed statements. -/
def okPayload (d : (List NativeValue × RunId × Nat) × C_TrainingAgent)
    (x : Except AgentError ((List NativeValue × RunId × Nat) × C_TrainingAgent)) :
    (List NativeValue × RunId × Nat) × C_TrainingAgent :=
  match x with
  | .ok pr => pr
  | .error _ => d

/-- The value list of a successful agent call, if any. -/
def resultValues (x : Except AgentError ((List OrtValue × RunId × Nat) × World)) :
    Option (List OrtValue) :=
  match x with
  | .ok r => some r.1.1
  | .error _ => none

/-- A concrete model: forward subgraph yielding `[1, 2]` then ending with
`[3]`; backward subgraph yielding `[10]` then ending with `[20]`. -/
def demoModel : Model :=
  { forwardFirst := [1, 2], forwardRest := [[3]],
    backwardFirst := [10], backwardRest := [[20]] }

/-- A concrete session over `demoModel`. -/
def demoSession : InferenceSession :=
  { model := demoModel, providers := ["CPUExecutionProvider"] }

/-- A concrete agent world over `demoSession` with native handle 7. -/
def demoWorld : World :=
  { agent := { _inference_session := demoSession, _training_agent := 7 },
    cstate := C_TrainingAgent.create 7 demoSession }

/-- A concrete binding over `demoSession`. -/
def demoIOB : IOBinding := { session := demoSession }

/-- `demoWorld` after one `run_forward`: forward run `(7, 0)` is suspended at
the first forward yield with token 0 and yielded slots `[1, 2]`. -/
def demoForwardWorld : World := (demoWorld.run_forward demoIOB ()).2

/-- `demoForwardWorld` after seeding backward with `run_backward [5, 6]`:
backward run `(7, 1)` is suspended at the first backward yield with token 1
and yielded slots `[10]`. -/
def demoBackwardWorld : World :=
  demoForwardWorld.applyOp (.runB [5, 6] { agent := 7, idx := 0 })

/-- A fallback payload for `okPayload`. -/
def demoFallback : (List NativeValue × RunId × Nat) × C_TrainingAgent :=
  (([], { agent := 0, idx := 0 }, 0), demoWorld.cstate)

/-- The native payload of `resume_forward [9, 8]` on the suspended forward
run of `demoForwardWorld`. -/
def demoPrResumeF : (List NativeValue × RunId × Nat) × C_TrainingAgent :=
  okPayload demoFallback
    (demoForwardWorld.cstate.resume_forward [9, 8] { agent := 7, idx := 0 })

/-- The native payload of `run_backward [5, 6]` on the suspended forward run
of `demoForwardWorld`. -/
def demoPrRunB : (List NativeValue × RunId × Nat) × C_TrainingAgent :=
  okPayload demoFallback
    (demoForwardWorld.cstate.run_backward [5, 6] { agent := 7, idx := 0 })

/-- A concrete model whose forward subgraph contains no yield operator. -/
def demoNoYieldModel : Model :=
  { forwardFirst := [4, 5], forwardRest := [], backwardFirst := [], backwardRest := [] }

/-- A concrete session over `demoNoYieldModel`. -/
def demoNoYieldSession : InferenceSession :=
  { model := demoNoYieldModel, providers := ["CPUExecutionProvider"] }

/-- A concrete world over `demoNoYieldSession` with native handle 5. -/
def demoNoYieldWorld : World :=
  { agent := { _inference_session := demoNoYieldSession, _training_agent := 5 },
    cstate := C_TrainingAgent.create 5 demoNoYieldSession }

/-- A concrete provider environment offering only the CPU provider. -/
def demoEnv : SessionEnv := { availableProviders := ["CPUExecutionProvider"] }

/-- A concrete binding over `demoNoYieldSession`. -/
def demoNoYieldIOB : IOBinding := { session := demoNoYieldSession }

/-- The wrapper-level result of `resume_forward [9, 8]` on the suspended
forward run of `demoForwardWorld`. -/
def demoResumeFResult : (List OrtValue × RunId × Nat) × World :=
  ((demoPrResumeF.1.1.map OrtValue.mk, demoPrResumeF.1.2.1, demoPrResumeF.1.2.2),
   { agent := demoForwardWorld.agent, cstate := demoPrResumeF.2 })

/-- The wrapper-level result of `run_backward [5, 6]` on the suspended
forward run of `demoForwardWorld`. -/
def demoRunBResult : (List OrtValue × RunId × Nat) × World :=
  ((demoPrRunB.1.1.map OrtValue.mk, demoPrRunB.1.2.1, demoPrRunB.1.2.2),
   { agent := demoForwardWorld.agent, cstate := demoPrRunB.2 })

/-! ### Lemmas about the run table -/

theorem findRun_mem {l : List (RunId × RunEntry)} {rid : RunId} {e : RunEntry}
    (h : findRun l rid = some e) : (rid, e) ∈ l := by
  induction l with
  | nil => simp [findRun] at h
  | cons p rest ih =>
    obtain ⟨k, v⟩ := p
    simp only [findRun] at h
    by_cases hk : k = rid
    · rw [if_pos hk] at h
      obtain rfl : v = e := Option.some.inj h
      subst hk
      exact List.mem_cons_self _ _
    · rw [if_neg hk] at h
      exact List.mem_cons_of_mem _ (ih h)

theorem mem_setRun {l : List (RunId × RunEntry)} {rid : RunId} {e : RunEntry}
    {p : RunId × RunEntry} (h : p ∈ setRun l rid e) : p ∈ l ∨ p = (rid, e) := by
  induction l with
  | nil => simp [setRun] at h
  | cons q rest ih =>
    obtain ⟨k, v⟩ := q
    simp only [setRun] at h
    by_cases hk : k = rid
    · rw [if_pos hk] at h
      rcases List.mem_cons.mp h with h1 | h1
      · right; rw [h1, hk]
      · left; exact List.mem_cons_of_mem _ h1
    · rw [if_neg hk] at h
      rcases List.mem_cons.mp h with h1 | h1
      · left; rw [h1]; exact List.mem_cons_self _ _
      · rcases ih h1 with h2 | h2
        · left; exact List.mem_cons_of_mem _ h2
        · right; exact h2

theorem findRun_setRun_ne {l : List (RunId × RunEntry)} {rid k : RunId}
    {e : RunEntry} (hne : k ≠ rid) : findRun (setRun l rid e) k = findRun l k := by
  induction l with
  | nil => rfl
  | cons q rest ih =>
    obtain ⟨k2, v⟩ := q
    simp only [setRun]
    by_cases h2 : k2 = rid
    · rw [if_pos h2]
      simp only [findRun]
      have hkk : k2 ≠ k := fun hh => hne (hh ▸ h2)
      rw [if_neg hkk, if_neg hkk]
    · rw [if_neg h2]
      simp only [findRun]
      by_cases h3 : k2 = k
      · rw [if_pos h3, if_pos h3]
      · rw [if_neg h3, if_neg h3, ih]

theorem findRun_setRun_self {l : List (RunId × RunEntry)} {rid : RunId}
    {e e0 : RunEntry} (h : findRun l rid = some e0) :
    findRun (setRun l rid e) rid = some e := by
  induction l with
  | nil => simp [findRun] at h
  | cons q rest ih =>
    obtain ⟨k, v⟩ := q
    simp only [findRun] at h
    simp only [setRun]
    by_cases hk : k = rid
    · rw [if_pos hk]
      simp only [findRun]
      rw [if_pos hk]
    · rw [if_neg hk]
      simp only [findRun]
      rw [if_neg hk]
      rw [if_neg hk] at h
      exact ih h

theorem tokenLt_mono {e : RunEntry} {n m : Nat} (h : e.tokenLt n) (hnm : n ≤ m) :
    e.tokenLt m := by
  cases e with
  | completed => trivial
  | suspended rs => exact Nat.lt_of_lt_of_le h hnm

/-! ### Characterizations of the native primitives -/

theorem run_forward_eq (s : C_TrainingAgent) (iob : IOBinding) (ro : RunOptions) :
    s.run_forward iob ro =
      ((s.model.forwardFirst, { agent := s.agentId, idx := s.nextRunId }, s.nextToken),
        { s with
          runs := ({ agent := s.agentId, idx := s.nextRunId },
            if s.model.forwardRest.isEmpty then RunEntry.completed
            else RunEntry.suspended
              { dir := .fwd, token := s.nextToken, yielded := s.model.forwardFirst,
                remaining := s.model.forwardRest }) :: s.runs,
          nextRunId := s.nextRunId + 1, nextToken := s.nextToken + 1 }) := rfl

theorem resume_ok_iff {s : C_TrainingAgent} {dir : Direction}
    {inputs : List NativeValue} {rid : RunId}
    {pr : (List NativeValue × RunId × Nat) × C_TrainingAgent} :
    s.resume dir inputs rid = .ok pr ↔
      ∃ rs out rest, findRun s.runs rid = some (.suspended rs) ∧ rs.dir = dir ∧
        inputs.length = rs.yielded.length ∧ rs.remaining = out :: rest ∧
        pr = ((out, rid, s.nextToken),
          { s with
            runs := setRun s.runs rid
              (if rest.isEmpty then RunEntry.completed
               else RunEntry.suspended
                 { dir := dir, token := s.nextToken, yielded := out, remaining := rest }),
            nextToken := s.nextToken + 1 }) := by
  constructor
  · intro h
    unfold C_TrainingAgent.resume at h
    split at h
    · exact absurd h (by simp)
    · exact absurd h (by simp)
    · rename_i rs heq
      split at h
      · exact absurd h (by simp)
      · rename_i hdir
        split at h
        · exact absurd h (by simp)
        · rename_i hlen
          split at h
          · exact absurd h (by simp)
          · rename_i out rest hrem
            refine ⟨rs, out, rest, heq, ?_, ?_, hrem, ?_⟩
            · exact not_not.mp hdir
            · exact not_not.mp hlen
            · exact (Except.ok.inj h).symm
  · rintro ⟨rs, out, rest, heq, hdir, hlen, hrem, hpr⟩
    unfold C_TrainingAgent.resume
    rw [heq]
    simp only [hdir, hlen, hrem, ne_eq, not_true_eq_false, if_false, ite_not]
    rw [hpr]

theorem resume_not_suspended {s : C_TrainingAgent} {dir : Direction}
    {inputs : List NativeValue} {rid : RunId}
    (h : findRun s.runs rid = none ∨ findRun s.runs rid = some .completed) :
    s.resume dir inputs rid = .error .invalidRun := by
  unfold C_TrainingAgent.resume
  rcases h with h | h <;> rw [h]

theorem run_backward_ok_iff {s : C_TrainingAgent}
    {grads : List NativeValue} {rid : RunId}
    {pr : (List NativeValue × RunId × Nat) × C_TrainingAgent} :
    s.run_backward grads rid = .ok pr ↔
      ∃ rs, findRun s.runs rid = some (.suspended rs) ∧ rs.dir = .fwd ∧
        grads.length = rs.yielded.length ∧
        pr = ((s.model.backwardFirst, { agent := s.agentId, idx := s.nextRunId },
               s.nextToken),
          { s with
            runs := ({ agent := s.agentId, idx := s.nextRunId },
              if s.model.backwardRest.isEmpty then RunEntry.completed
              else RunEntry.suspended
                { dir := .bwd, token := s.nextToken, yielded := s.model.backwardFirst,
                  remaining := s.model.backwardRest }) :: s.runs,
            nextRunId := s.nextRunId + 1, nextToken := s.nextToken + 1 }) := by
  constructor
  · intro h
    unfold C_TrainingAgent.run_backward at h
    split at h
    · exact absurd h (by simp)
    · exact absurd h (by simp)
    · rename_i rs heq
      split at h
      · exact absurd h (by simp)
      · rename_i hdir
        split at h
        · exact absurd h (by simp)
        · rename_i hlen
          exact ⟨rs, heq, not_not.mp hdir, not_not.mp hlen, (Except.ok.inj h).symm⟩
  · rintro ⟨rs, heq, hdir, hlen, hpr⟩
    unfold C_TrainingAgent.run_backward
    rw [heq]
    simp only [hdir, hlen, ne_eq, not_true_eq_false, if_false, ite_not]
    rw [hpr]

theorem run_backward_not_suspended {s : C_TrainingAgent}
    {grads : List NativeValue} {rid : RunId}
    (h : findRun s.runs rid = none ∨ findRun s.runs rid = some .completed) :
    s.run_backward grads rid = .error .invalidRun := by
  unfold C_TrainingAgent.run_backward
  rcases h with h | h <;> rw [h]

/-! ### Preservation lemmas for the native state -/

theorem WF_run_forward {s : C_TrainingAgent} (hwf : s.WF) (iob : IOBinding)
    (ro : RunOptions) : ((s.run_forward iob ro).2).WF := by
  intro p hp
  have hp2 : p ∈ (({ agent := s.agentId, idx := s.nextRunId } : RunId),
      if s.model.forwardRest.isEmpty then RunEntry.completed
      else RunEntry.suspended
        { dir := .fwd, token := s.nextToken, yielded := s.model.forwardFirst,
          remaining := s.model.forwardRest }) :: s.runs := hp
  show p.1.agent = s.agentId ∧ p.1.idx < s.nextRunId + 1 ∧ p.2.tokenLt (s.nextToken + 1)
  rcases List.mem_cons.mp hp2 with h1 | h1
  · subst h1
    refine ⟨rfl, Nat.lt_succ_self _, ?_⟩
    cases hre : s.model.forwardRest with
    | nil => simp only [hre, List.isEmpty_nil, if_true]; exact trivial
    | cons a t => simp only [hre, List.isEmpty_cons, if_false]; exact Nat.lt_succ_self _
  · obtain ⟨ha, hi, ht⟩ := hwf p h1
    exact ⟨ha, Nat.lt_succ_of_lt hi, tokenLt_mono ht (Nat.le_succ _)⟩

theorem WF_resume {s : C_TrainingAgent} {dir : Direction} {inputs : List NativeValue}
    {rid : RunId} {pr : (List NativeValue × RunId × Nat) × C_TrainingAgent}
    (h : s.resume dir inputs rid = .ok pr) (hwf : s.WF) : pr.2.WF := by
  obtain ⟨rs, out, rest, heq, hdir, hlen, hrem, hpr⟩ := resume_ok_iff.mp h
  subst hpr
  intro p hp
  have hp2 : p ∈ setRun s.runs rid
      (if rest.isEmpty then RunEntry.completed
       else RunEntry.suspended
         { dir := dir, token := s.nextToken, yielded := out, remaining := rest }) := hp
  show p.1.agent = s.agentId ∧ p.1.idx < s.nextRunId ∧ p.2.tokenLt (s.nextToken + 1)
  rcases mem_setRun hp2 with h1 | h1
  · obtain ⟨ha, hi, ht⟩ := hwf p h1
    exact ⟨ha, hi, tokenLt_mono ht (Nat.le_succ _)⟩
  · subst h1
    obtain ⟨ha, hi, _⟩ := hwf _ (findRun_mem heq)
    refine ⟨ha, hi, ?_⟩
    cases rest with
    | nil => exact trivial
    | cons a t => exact Nat.lt_succ_self _

theorem WF_run_backward {s : C_TrainingAgent} {grads : List NativeValue}
    {rid : RunId} {pr : (List NativeValue × RunId × Nat) × C_TrainingAgent}
    (h : s.run_backward grads rid = .ok pr) (hwf : s.WF) : pr.2.WF := by
  obtain ⟨rs, heq, hdir, hlen, hpr⟩ := run_backward_ok_iff.mp h
  subst hpr
  intro p hp
  have hp2 : p ∈ (({ agent := s.agentId, idx := s.nextRunId } : RunId),
      if s.model.backwardRest.isEmpty then RunEntry.completed
      else RunEntry.suspended
        { dir := .bwd, token := s.nextToken, yielded := s.model.backwardFirst,
          remaining := s.model.backwardRest }) :: s.runs := hp
  show p.1.agent = s.agentId ∧ p.1.idx < s.nextRunId + 1 ∧ p.2.tokenLt (s.nextToken + 1)
  rcases List.mem_cons.mp hp2 with h1 | h1
  · subst h1
    refine ⟨rfl, Nat.lt_succ_self _, ?_⟩
    cases hre : s.model.backwardRest with
    | nil => simp only [hre, List.isEmpty_nil, if_true]; exact trivial
    | cons a t => simp only [hre, List.isEmpty_cons, if_false]; exact Nat.lt_succ_self _
  · obtain ⟨ha, hi, ht⟩ := hwf p h1
    exact ⟨ha, Nat.lt_succ_of_lt hi, tokenLt_mono ht (Nat.le_succ _)⟩

theorem completed_run_forward {s : C_TrainingAgent} {rid : RunId} (hwf : s.WF)
    (hc : findRun s.runs rid = some .completed) (iob : IOBinding) (ro : RunOptions) :
    findRun ((s.run_forward iob ro).2).runs rid = some .completed := by
  have hi := (hwf _ (findRun_mem hc)).2.1
  have hne : ({ agent := s.agentId, idx := s.nextRunId } : RunId) ≠ rid := by
    intro hh
    rw [← hh] at hi
    exact Nat.lt_irrefl _ hi
  show findRun ((({ agent := s.agentId, idx := s.nextRunId } : RunId),
      if s.model.forwardRest.isEmpty then RunEntry.completed
      else RunEntry.suspended
        { dir := .fwd, token := s.nextToken, yielded := s.model.forwardFirst,
          remaining := s.model.forwardRest }) :: s.runs) rid = some RunEntry.completed
  simp only [findRun]
  rw [if_neg hne]
  exact hc

theorem completed_resume {s : C_TrainingAgent} {dir : Direction}
    {inputs : List NativeValue} {rid2 rid : RunId}
    {pr : (List NativeValue × RunId × Nat) × C_TrainingAgent}
    (hc : findRun s.runs rid = some .completed)
    (h : s.resume dir inputs rid2 = .ok pr) :
    findRun pr.2.runs rid = some .completed := by
  obtain ⟨rs, out, rest, heq, hdir, hlen, hrem, hpr⟩ := resume_ok_iff.mp h
  subst hpr
  have hne : rid ≠ rid2 := by
    intro hh
    rw [hh, heq] at hc
    exact RunEntry.noConfusion (Option.some.inj hc)
  show findRun (setRun s.runs rid2
      (if rest.isEmpty then RunEntry.completed
       else RunEntry.suspended
         { dir := dir, token := s.nextToken, yielded := out, remaining := rest })) rid =
    some RunEntry.completed
  rw [findRun_setRun_ne hne]
  exact hc

theorem completed_run_backward {s : C_TrainingAgent} {grads : List NativeValue}
    {rid2 rid : RunId} {pr : (List NativeValue × RunId × Nat) × C_TrainingAgent}
    (hwf : s.WF) (hc : findRun s.runs rid = some .completed)
    (h : s.run_backward grads rid2 = .ok pr) :
    findRun pr.2.runs rid = some .completed := by
  obtain ⟨rs, heq, hdir, hlen, hpr⟩ := run_backward_ok_iff.mp h
  subst hpr
  have hi := (hwf _ (findRun_mem hc)).2.1
  have hne : ({ agent := s.agentId, idx := s.nextRunId } : RunId) ≠ rid := by
    intro hh
    rw [← hh] at hi
    exact Nat.lt_irrefl _ hi
  show findRun ((({ agent := s.agentId, idx := s.nextRunId } : RunId),
      if s.model.backwardRest.isEmpty then RunEntry.completed
      else RunEntry.suspended
        { dir := .bwd, token := s.nextToken, yielded := s.model.backwardFirst,
          remaining := s.model.backwardRest }) :: s.runs) rid = some RunEntry.completed
  simp only [findRun]
  rw [if_neg hne]
  exact hc

/-! ### Equations for the Python wrapper methods -/

theorem wrapper_run_forward_eq (w : World) (iob : IOBinding) (ro : RunOptions) :
    w.run_forward iob ro =
      (((w.cstate.run_forward iob ro).1.1.map OrtValue.mk,
        (w.cstate.run_forward iob ro).1.2.1, (w.cstate.run_forward iob ro).1.2.2),
       { agent := w.agent, cstate := (w.cstate.run_forward iob ro).2 }) := rfl

theorem wrapper_resume_forward_ok {w : World} {inputs : List NativeValue}
    {rid : RunId} {pr : (List NativeValue × RunId × Nat) × C_TrainingAgent}
    (h : w.cstate.resume_forward inputs rid = .ok pr) :
    w.resume_forward inputs rid =
      .ok ((pr.1.1.map OrtValue.mk, pr.1.2.1, pr.1.2.2),
           { agent := w.agent, cstate := pr.2 }) := by
  unfold World.resume_forward
  rw [h]

theorem wrapper_resume_forward_error {w : World} {inputs : List NativeValue}
    {rid : RunId} {e : AgentError}
    (h : w.cstate.resume_forward inputs rid = .error e) :
    w.resume_forward inputs rid = .error e := by
  unfold World.resume_forward
  rw [h]

theorem wrapper_run_backward_ok {w : World} {grads : List NativeValue}
    {rid : RunId} {pr : (List NativeValue × RunId × Nat) × C_TrainingAgent}
    (h : w.cstate.run_backward grads rid = .ok pr) :
    w.run_backward grads rid =
      .ok ((pr.1.1.map OrtValue.mk, pr.1.2.1, pr.1.2.2),
           { agent := w.agent, cstate := pr.2 }) := by
  unfold World.run_backward
  rw [h]

theorem wrapper_run_backward_error {w : World} {grads : List NativeValue}
    {rid : RunId} {e : AgentError}
    (h : w.cstate.run_backward grads rid = .error e) :
    w.run_backward grads rid = .error e := by
  unfold World.run_backward
  rw [h]

theorem wrapper_resume_backward_ok {w : World} {inputs : List NativeValue}
    {rid : RunId} {pr : (List NativeValue × RunId × Nat) × C_TrainingAgent}
    (h : w.cstate.run_backward inputs rid = .ok pr) :
    w.resume_backward inputs rid =
      .ok ((pr.1.1.map OrtValue.mk, pr.1.2.1, pr.1.2.2),
           { agent := w.agent, cstate := pr.2 }) := by
  unfold World.resume_backward
  rw [h]

theorem wrapper_resume_backward_error {w : World} {inputs : List NativeValue}
    {rid : RunId} {e : AgentError}
    (h : w.cstate.run_backward inputs rid = .error e) :
    w.resume_backward inputs rid = .error e := by
  unfold World.resume_backward
  rw [h]

/-! ### Lifting the preservation lemmas to the wrapper -/

theorem WF_applyOp {w : World} (hwf : w.cstate.WF) (op : AgentOp) :
    ((w.applyOp op).cstate).WF := by
  cases op with
  | runF iob ro => exact WF_run_forward hwf iob ro
  | resumeF inputs rid =>
    cases hp : w.cstate.resume_forward inputs rid with
    | error e =>
      have he : w.applyOp (.resumeF inputs rid) = w := by
        simp only [World.applyOp, wrapper_resume_forward_error hp]
      rw [he]; exact hwf
    | ok pr =>
      have he : w.applyOp (.resumeF inputs rid) = { agent := w.agent, cstate := pr.2 } := by
        simp only [World.applyOp, wrapper_resume_forward_ok hp]
      rw [he]; exact WF_resume hp hwf
  | runB grads rid =>
    cases hp : w.cstate.run_backward grads rid with
    | error e =>
      have he : w.applyOp (.runB grads rid) = w := by
        simp only [World.applyOp, wrapper_run_backward_error hp]
      rw [he]; exact hwf
    | ok pr =>
      have he : w.applyOp (.runB grads rid) = { agent := w.agent, cstate := pr.2 } := by
        simp only [World.applyOp, wrapper_run_backward_ok hp]
      rw [he]; exact WF_run_backward hp hwf
  | resumeB inputs rid =>
    cases hp : w.cstate.run_backward inputs rid with
    | error e =>
      have he : w.applyOp (.resumeB inputs rid) = w := by
        simp only [World.applyOp, wrapper_resume_backward_error hp]
      rw [he]; exact hwf
    | ok pr =>
      have he : w.applyOp (.resumeB inputs rid) = { agent := w.agent, cstate := pr.2 } := by
        simp only [World.applyOp, wrapper_resume_backward_ok hp]
      rw [he]; exact WF_run_backward hp hwf
  | ioBindingCall => exact hwf

theorem completed_applyOp {w : World} {rid : RunId} (hwf : w.cstate.WF)
    (hc : findRun w.cstate.runs rid = some .completed) (op : AgentOp) :
    findRun ((w.applyOp op).cstate).runs rid = some .completed := by
  cases op with
  | runF iob ro => exact completed_run_forward hwf hc iob ro
  | resumeF inputs rid2 =>
    cases hp : w.cstate.resume_forward inputs rid2 with
    | error e =>
      have he : w.applyOp (.resumeF inputs rid2) = w := by
        simp only [World.applyOp, wrapper_resume_forward_error hp]
      rw [he]; exact hc
    | ok pr =>
      have he : w.applyOp (.resumeF inputs rid2) = { agent := w.agent, cstate := pr.2 } := by
        simp only [World.applyOp, wrapper_resume_forward_ok hp]
      rw [he]; exact completed_resume hc hp
  | runB grads rid2 =>
    cases hp : w.cstate.run_backward grads rid2 with
    | error e =>
      have he : w.applyOp (.runB grads rid2) = w := by
        simp only [World.applyOp, wrapper_run_backward_error hp]
      rw [he]; exact hc
    | ok pr =>
      have he : w.applyOp (.runB grads rid2) = { agent := w.agent, cstate := pr.2 } := by
        simp only [World.applyOp, wrapper_run_backward_ok hp]
      rw [he]; exact completed_run_backward hwf hc hp
  | resumeB inputs rid2 =>
    cases hp : w.cstate.run_backward inputs rid2 with
    | error e =>
      have he : w.applyOp (.resumeB inputs rid2) = w := by
        simp only [World.applyOp, wrapper_resume_backward_error hp]
      rw [he]; exact hc
    | ok pr =>
      have he : w.applyOp (.resumeB inputs rid2) = { agent := w.agent, cstate := pr.2 } := by
        simp only [World.applyOp, wrapper_resume_backward_ok hp]
      rw [he]; exact completed_run_backward hwf hc hp
  | ioBindingCall => exact hc

theorem completed_applyOps {w : World} {rid : RunId} (hwf : w.cstate.WF)
    (hc : findRun w.cstate.runs rid = some .completed) (ops : List AgentOp) :
    findRun ((w.applyOps ops).cstate).runs rid = some .completed := by
  induction ops generalizing w with
  | nil => exact hc
  | cons op rest ih =>
    exact ih (WF_applyOp hwf op) (completed_applyOp hwf hc op)

theorem agent_applyOp (w : World) (op : AgentOp) : (w.applyOp op).agent = w.agent := by
  cases op with
  | runF iob ro => rfl
  | resumeF inputs rid =>
    cases hp : w.cstate.resume_forward inputs rid with
    | error e =>
      simp only [World.applyOp, wrapper_resume_forward_error hp]
    | ok pr =>
      simp only [World.applyOp, wrapper_resume_forward_ok hp]
  | runB grads rid =>
    cases hp : w.cstate.run_backward grads rid with
    | error e =>
      simp only [World.applyOp, wrapper_run_backward_error hp]
    | ok pr =>
      simp only [World.applyOp, wrapper_run_backward_ok hp]
  | resumeB inputs rid =>
    cases hp : w.cstate.run_backward inputs rid with
    | error e =>
      simp only [World.applyOp, wrapper_resume_backward_error hp]
    | ok pr =>
      simp only [World.applyOp, wrapper_resume_backward_ok hp]
  | ioBindingCall => rfl

/-! ### Construction equations -/

theorem create_training_agent_error {env : SessionEnv} {aid : Nat}
    {pob : ModelSource} {so : SessionOptions} {providers : List ProviderSpec}
    {popt : Option (List (List (String × String)))} {e : ConstructionError}
    (hs : InferenceSession.create env pob so providers popt = .error e) :
    TrainingAgent.create_training_agent env aid pob so providers popt = .error e := by
  unfold TrainingAgent.create_training_agent
  rw [hs]
  rfl

theorem create_training_agent_ok {env : SessionEnv} {aid : Nat}
    {pob : ModelSource} {so : SessionOptions} {providers : List ProviderSpec}
    {popt : Option (List (List (String × String)))} {sess : InferenceSession}
    (hs : InferenceSession.create env pob so providers popt = .ok sess) :
    TrainingAgent.create_training_agent env aid pob so providers popt =
      .ok { agent := { _inference_session := sess, _training_agent := aid },
            cstate := C_TrainingAgent.create aid sess } := by
  unfold TrainingAgent.create_training_agent
  rw [hs]
  rfl

/-! ### Claim theorems -/

/-- C1: the claim says `resume_backward` continues a suspended backward run
from its last yield via a backward-resume primitive distinct from the
`run_backward` gradient-seeding primitive.  On a concrete suspended backward
run the source's `resume_backward` — whose body calls the native
`run_backward` — fails with an invalid-run error, while the backward-resume
contract of spec section 4.5 continues the run and returns the next yield's
values `[20]`. -/
theorem claim_C1_resume_backward_aliasing :
    World.resume_backward demoBackwardWorld [7] { agent := 7, idx := 1 } =
      .error AgentError.invalidRun ∧
    resultValues (World.resume_backward_specified demoBackwardWorld [7]
      { agent := 7, idx := 1 }) = some [OrtValue.mk 20] :=
  ⟨rfl, rfl⟩

/-- C3: each of the four operations returns exactly a triple of the wrapped
value list, the run identifier and the continuation token produced by the
native primitive that the method invokes, with the identifier and token
passed through unmodified. -/
theorem claim_C3_triple_pass_through :
    (∀ (w : World) (iob : IOBinding) (ro : RunOptions),
      w.run_forward iob ro =
        (((w.cstate.run_forward iob ro).1.1.map OrtValue.mk,
          (w.cstate.run_forward iob ro).1.2.1, (w.cstate.run_forward iob ro).1.2.2),
         { agent := w.agent, cstate := (w.cstate.run_forward iob ro).2 })) ∧
    (∀ (w : World) (inputs : List NativeValue) (rid : RunId)
        (pr : (List NativeValue × RunId × Nat) × C_TrainingAgent),
      w.cstate.resume_forward inputs rid = .ok pr →
      w.resume_forward inputs rid =
        .ok ((pr.1.1.map OrtValue.mk, pr.1.2.1, pr.1.2.2),
             { agent := w.agent, cstate := pr.2 })) ∧
    (∀ (w : World) (grads : List NativeValue) (rid : RunId)
        (pr : (List NativeValue × RunId × Nat) × C_TrainingAgent),
      w.cstate.run_backward grads rid = .ok pr →
      w.run_backward grads rid =
        .ok ((pr.1.1.map OrtValue.mk, pr.1.2.1, pr.1.2.2),
             { agent := w.agent, cstate := pr.2 })) ∧
    (∀ (w : World) (inputs : List NativeValue) (rid : RunId)
        (pr : (List NativeValue × RunId × Nat) × C_TrainingAgent),
      w.cstate.run_backward inputs rid = .ok pr →
      w.resume_backward inputs rid =
        .ok ((pr.1.1.map OrtValue.mk, pr.1.2.1, pr.1.2.2),
             { agent := w.agent, cstate := pr.2 })) :=
  ⟨wrapper_run_forward_eq,
   fun _ _ _ _ h => wrapper_resume_forward_ok h,
   fun _ _ _ _ h => wrapper_run_backward_ok h,
   fun _ _ _ _ h => wrapper_resume_backward_ok h⟩

/-- Witness for C3: concrete successful `resume_forward`, `run_backward` and
`resume_backward` calls with their native payloads. -/
theorem claim_C3_triple_pass_through_witness :
    (demoForwardWorld.cstate.resume_forward [9, 8] { agent := 7, idx := 0 } =
        .ok demoPrResumeF ∧
      World.resume_forward demoForwardWorld [9, 8] { agent := 7, idx := 0 } =
        .ok ((demoPrResumeF.1.1.map OrtValue.mk, demoPrResumeF.1.2.1,
              demoPrResumeF.1.2.2),
             { agent := demoForwardWorld.agent, cstate := demoPrResumeF.2 })) ∧
    (demoForwardWorld.cstate.run_backward [5, 6] { agent := 7, idx := 0 } =
        .ok demoPrRunB ∧
      World.run_backward demoForwardWorld [5, 6] { agent := 7, idx := 0 } =
        .ok ((demoPrRunB.1.1.map OrtValue.mk, demoPrRunB.1.2.1, demoPrRunB.1.2.2),
             { agent := demoForwardWorld.agent, cstate := demoPrRunB.2 })) ∧
    World.resume_backward demoForwardWorld [5, 6] { agent := 7, idx := 0 } =
      .ok ((demoPrRunB.1.1.map OrtValue.mk, demoPrRunB.1.2.1, demoPrRunB.1.2.2),
           { agent := demoForwardWorld.agent, cstate := demoPrRunB.2 }) :=
  ⟨⟨rfl, claim_C3_triple_pass_through.2.1 demoForwardWorld [9, 8]
      { agent := 7, idx := 0 } demoPrResumeF rfl⟩,
   ⟨rfl, claim_C3_triple_pass_through.2.2.1 demoForwardWorld [5, 6]
      { agent := 7, idx := 0 } demoPrRunB rfl⟩,
   claim_C3_triple_pass_through.2.2.2 demoForwardWorld [5, 6]
      { agent := 7, idx := 0 } demoPrRunB rfl⟩

/-- C6: when the underlying session fails to construct (model load failure,
provider resolution failure, or configuration error), agent construction
propagates exactly that error and returns no agent. -/
theorem claim_C6_construction_all_or_nothing :
    ∀ (env : SessionEnv) (aid : Nat) (pob : ModelSource) (so : SessionOptions)
      (providers : List ProviderSpec)
      (popt : Option (List (List (String × String)))) (e : ConstructionError),
      InferenceSession.create env pob so providers popt = .error e →
      TrainingAgent.create_training_agent env aid pob so providers popt = .error e :=
  fun _ _ _ _ _ _ _ h => create_training_agent_error h

/-- Witness for C6: a corrupt model source fails session construction with a
model-load failure, and agent construction surfaces the same error. -/
theorem claim_C6_construction_all_or_nothing_witness :
    InferenceSession.create demoEnv ModelSource.corrupt ()
        [ProviderSpec.bare "CPUExecutionProvider"] none =
      .error .modelLoadFailure ∧
    TrainingAgent.create_training_agent demoEnv 3 ModelSource.corrupt ()
        [ProviderSpec.bare "CPUExecutionProvider"] none =
      .error .modelLoadFailure :=
  ⟨rfl, claim_C6_construction_all_or_nothing demoEnv 3 ModelSource.corrupt ()
      [ProviderSpec.bare "CPUExecutionProvider"] none .modelLoadFailure rfl⟩

/-- C7: supplying both inline per-provider options (a tuple inside the
providers list) and a parallel `provider_options` list fails agent
construction with a configuration error, before any graph execution. -/
theorem claim_C7_mutually_exclusive_options :
    ∀ (env : SessionEnv) (aid : Nat) (pob : ModelSource) (so : SessionOptions)
      (providers : List ProviderSpec)
      (popt : Option (List (List (String × String)))),
      providers.any ProviderSpec.hasInlineOptions = true →
      popt.isSome = true →
      TrainingAgent.create_training_agent env aid pob so providers popt =
        .error .configurationError := by
  intro env aid pob so providers popt h1 h2
  have hs : InferenceSession.create env pob so providers popt =
      .error .configurationError := by
    unfold InferenceSession.create
    rw [h1, h2]
    rfl
  exact create_training_agent_error hs

/-- Witness for C7: inline CUDA provider options together with a parallel
options list yield a configuration error — even on a model source that
would fail to load, showing the check precedes loading and execution. -/
theorem claim_C7_mutually_exclusive_options_witness :
    ([ProviderSpec.withOptions "CUDAExecutionProvider" [("device_id", "0")]].any
        ProviderSpec.hasInlineOptions = true) ∧
    ((some [[("do_copy_in_default_stream", "1")]] :
        Option (List (List (String × String)))).isSome = true) ∧
    TrainingAgent.create_training_agent demoEnv 3 ModelSource.corrupt ()
        [ProviderSpec.withOptions "CUDAExecutionProvider" [("device_id", "0")]]
        (some [[("do_copy_in_default_stream", "1")]]) =
      .error .configurationError :=
  ⟨rfl, rfl,
   claim_C7_mutually_exclusive_options demoEnv 3 ModelSource.corrupt ()
     [ProviderSpec.withOptions "CUDAExecutionProvider" [("device_id", "0")]]
     (some [[("do_copy_in_default_stream", "1")]]) rfl rfl⟩

/-- C9: `resume_forward`, `run_backward` and `resume_backward` hand the
caller's native-level input sequence to the native primitive they invoke
as-is — unchanged in content, order and length, with no unwrapping — and
only the returned values are wrapped as `OrtValue`. -/
theorem claim_C9_input_marshaling_asymmetry :
    ∀ (w : World) (inputs : List NativeValue) (rid : RunId),
      w.resume_forward inputs rid =
        (w.cstate.resume_forward inputs rid).map
          (fun pr => ((pr.1.1.map OrtValue.mk, pr.1.2.1, pr.1.2.2),
                      { agent := w.agent, cstate := pr.2 })) ∧
      w.run_backward inputs rid =
        (w.cstate.run_backward inputs rid).map
          (fun pr => ((pr.1.1.map OrtValue.mk, pr.1.2.1, pr.1.2.2),
                      { agent := w.agent, cstate := pr.2 })) ∧
      w.resume_backward inputs rid =
        (w.cstate.run_backward inputs rid).map
          (fun pr => ((pr.1.1.map OrtValue.mk, pr.1.2.1, pr.1.2.2),
                      { agent := w.agent, cstate := pr.2 })) := by
  intro w inputs rid
  refine ⟨?_, ?_, ?_⟩
  · cases hp : w.cstate.resume_forward inputs rid with
    | error e => rw [wrapper_resume_forward_error hp]; rfl
    | ok pr => rw [wrapper_resume_forward_ok hp]; rfl
  · cases hp : w.cstate.run_backward inputs rid with
    | error e => rw [wrapper_run_backward_error hp]; rfl
    | ok pr => rw [wrapper_run_backward_ok hp]; rfl
  · cases hp : w.cstate.run_backward inputs rid with
    | error e => rw [wrapper_resume_backward_error hp]; rfl
    | ok pr => rw [wrapper_resume_backward_ok hp]; rfl

/-- C10: every `io_binding` call returns an I/O Binding constructed on the
agent's own inference session and leaves the agent and its native state
unchanged. -/
theorem claim_C10_io_binding_fresh_and_pure :
    ∀ w : World,
      (w.io_binding).1 = { session := w.agent._inference_session } ∧
      (w.io_binding).2 = w :=
  fun _ => ⟨rfl, rfl⟩

/-- C8: on successful construction the agent's two fields — its inference
session and its native execution-context handle — are established exactly
once from the constructed session, and no sequence of agent operations ever
changes either field. -/
theorem claim_C8_exclusive_session_association :
    (∀ (env : SessionEnv) (aid : Nat) (pob : ModelSource) (so : SessionOptions)
        (providers : List ProviderSpec)
        (popt : Option (List (List (String × String)))) (w : World),
      TrainingAgent.create_training_agent env aid pob so providers popt = .ok w →
      w.agent._training_agent = aid ∧
      w.cstate = C_TrainingAgent.create aid w.agent._inference_session) ∧
    (∀ (w : World) (ops : List AgentOp), (w.applyOps ops).agent = w.agent) := by
  constructor
  · intro env aid pob so providers popt w h
    cases hs : InferenceSession.create env pob so providers popt with
    | error e =>
      rw [create_training_agent_error hs] at h
      exact absurd h (by simp)
    | ok sess =>
      rw [create_training_agent_ok hs] at h
      obtain rfl := Except.ok.inj h
      exact ⟨rfl, rfl⟩
  · intro w ops
    induction ops generalizing w with
    | nil => rfl
    | cons op rest ih =>
      show ((w.applyOp op).applyOps rest).agent = w.agent
      rw [ih (w.applyOp op), agent_applyOp]

/-- Witness for C8: a concrete successful construction yielding `demoWorld`,
whose fields match the constructed session, and a concrete operation
sequence that leaves the agent record unchanged. -/
theorem claim_C8_exclusive_session_association_witness :
    TrainingAgent.create_training_agent demoEnv 7 (ModelSource.valid demoModel) ()
        [ProviderSpec.bare "CPUExecutionProvider"] none = .ok demoWorld ∧
    demoWorld.agent._training_agent = 7 ∧
    demoWorld.cstate = C_TrainingAgent.create 7 demoWorld.agent._inference_session ∧
    (demoWorld.applyOps [AgentOp.runF demoIOB (), AgentOp.ioBindingCall,
        AgentOp.resumeF [9, 8] { agent := 7, idx := 0 }]).agent = demoWorld.agent :=
  ⟨rfl,
   (claim_C8_exclusive_session_association.1 demoEnv 7 (ModelSource.valid demoModel) ()
     [ProviderSpec.bare "CPUExecutionProvider"] none demoWorld rfl).1,
   (claim_C8_exclusive_session_association.1 demoEnv 7 (ModelSource.valid demoModel) ()
     [ProviderSpec.bare "CPUExecutionProvider"] none demoWorld rfl).2,
   claim_C8_exclusive_session_association.2 demoWorld
     [AgentOp.runF demoIOB (), AgentOp.ioBindingCall,
      AgentOp.resumeF [9, 8] { agent := 7, idx := 0 }]⟩

/-- C2: every successful call of the four operations returns exactly the
declared output slots of the yield point reached, wrapped elementwise — the
agent wraps each native result (adding or dropping none, without
reordering), so count and order match the yield point's declaration. -/
theorem claim_C2_values_match_declared_slots :
    (∀ (w : World) (iob : IOBinding) (ro : RunOptions),
      (w.run_forward iob ro).1.1 = w.cstate.model.forwardFirst.map OrtValue.mk ∧
      (w.run_forward iob ro).1.1.length = w.cstate.model.forwardFirst.length) ∧
    (∀ (w : World) (inputs : List NativeValue) (rid : RunId)
        (r : (List OrtValue × RunId × Nat) × World),
      w.resume_forward inputs rid = .ok r →
      (w.cstate.reachedOnResume rid).map (List.map OrtValue.mk) = some r.1.1 ∧
      (w.cstate.reachedOnResume rid).map List.length = some r.1.1.length) ∧
    (∀ (w : World) (grads : List NativeValue) (rid : RunId)
        (r : (List OrtValue × RunId × Nat) × World),
      w.run_backward grads rid = .ok r →
      r.1.1 = w.cstate.model.backwardFirst.map OrtValue.mk ∧
      r.1.1.length = w.cstate.model.backwardFirst.length) ∧
    (∀ (w : World) (inputs : List NativeValue) (rid : RunId)
        (r : (List OrtValue × RunId × Nat) × World),
      w.resume_backward inputs rid = .ok r →
      r.1.1 = w.cstate.model.backwardFirst.map OrtValue.mk ∧
      r.1.1.length = w.cstate.model.backwardFirst.length) := by
  refine ⟨?_, ?_, ?_, ?_⟩
  · intro w iob ro
    refine ⟨rfl, ?_⟩
    show (w.cstate.model.forwardFirst.map OrtValue.mk).length = _
    exact List.length_map _ _
  · intro w inputs rid r h
    cases hp : w.cstate.resume_forward inputs rid with
    | error e =>
      rw [wrapper_resume_forward_error hp] at h
      exact absurd h (by simp)
    | ok pr =>
      rw [wrapper_resume_forward_ok hp] at h
      obtain rfl := Except.ok.inj h
      obtain ⟨rs, out, rest, heq, hdir, hlen, hrem, hpr⟩ := resume_ok_iff.mp hp
      have hreach : w.cstate.reachedOnResume rid = some out := by
        unfold C_TrainingAgent.reachedOnResume
        rw [heq]
        show rs.remaining.head? = some out
        rw [hrem]
        rfl
      rw [hreach, hpr]
      refine ⟨rfl, ?_⟩
      show some out.length = some (out.map OrtValue.mk).length
      rw [List.length_map]
  · intro w grads rid r h
    cases hp : w.cstate.run_backward grads rid with
    | error e =>
      rw [wrapper_run_backward_error hp] at h
      exact absurd h (by simp)
    | ok pr =>
      rw [wrapper_run_backward_ok hp] at h
      obtain rfl := Except.ok.inj h
      obtain ⟨rs, heq, hdir, hlen, hpr⟩ := run_backward_ok_iff.mp hp
      rw [hpr]
      refine ⟨rfl, ?_⟩
      show (w.cstate.model.backwardFirst.map OrtValue.mk).length = _
      exact List.length_map _ _
  · intro w inputs rid r h
    cases hp : w.cstate.run_backward inputs rid with
    | error e =>
      rw [wrapper_resume_backward_error hp] at h
      exact absurd h (by simp)
    | ok pr =>
      rw [wrapper_resume_backward_ok hp] at h
      obtain rfl := Except.ok.inj h
      obtain ⟨rs, heq, hdir, hlen, hpr⟩ := run_backward_ok_iff.mp hp
      rw [hpr]
      refine ⟨rfl, ?_⟩
      show (w.cstate.model.backwardFirst.map OrtValue.mk).length = _
      exact List.length_map _ _

/-- Witness for C2: concrete successful calls of all four operations whose
returned values match the declared slots of the yield point each reaches. -/
theorem claim_C2_values_match_declared_slots_witness :
    ((demoWorld.run_forward demoIOB ()).1.1 =
        demoWorld.cstate.model.forwardFirst.map OrtValue.mk) ∧
    (World.resume_forward demoForwardWorld [9, 8] { agent := 7, idx := 0 } =
        .ok demoResumeFResult ∧
      (demoForwardWorld.cstate.reachedOnResume { agent := 7, idx := 0 }).map
          (List.map OrtValue.mk) = some demoResumeFResult.1.1 ∧
      (demoForwardWorld.cstate.reachedOnResume { agent := 7, idx := 0 }).map
          List.length = some demoResumeFResult.1.1.length) ∧
    (World.run_backward demoForwardWorld [5, 6] { agent := 7, idx := 0 } =
        .ok demoRunBResult ∧
      demoRunBResult.1.1 =
        demoForwardWorld.cstate.model.backwardFirst.map OrtValue.mk) ∧
    (World.resume_backward demoForwardWorld [5, 6] { agent := 7, idx := 0 } =
        .ok demoRunBResult ∧
      demoRunBResult.1.1.length =
        demoForwardWorld.cstate.model.backwardFirst.length) :=
  ⟨(claim_C2_values_match_declared_slots.1 demoWorld demoIOB ()).1,
   ⟨rfl,
    (claim_C2_values_match_declared_slots.2.1 demoForwardWorld [9, 8]
      { agent := 7, idx := 0 } demoResumeFResult rfl).1,
    (claim_C2_values_match_declared_slots.2.1 demoForwardWorld [9, 8]
      { agent := 7, idx := 0 } demoResumeFResult rfl).2⟩,
   ⟨rfl,
    (claim_C2_values_match_declared_slots.2.2.1 demoForwardWorld [5, 6]
      { agent := 7, idx := 0 } demoRunBResult rfl).1⟩,
   ⟨rfl,
    (claim_C2_values_match_declared_slots.2.2.2 demoForwardWorld [5, 6]
      { agent := 7, idx := 0 } demoRunBResult rfl).2⟩⟩

/-- C4: a continuation token authorizes exactly one resumption of the run
that produced it.  Resuming an unknown run identifier (including any
identifier issued by a different agent) or a completed run fails with an
invalid-run error, and a successful resume retires the consumed token: the
freshly returned token differs from it and the run no longer carries it. -/
theorem claim_C4_token_single_use :
    ∀ (s : C_TrainingAgent) (dir : Direction) (inputs : List NativeValue)
      (rid : RunId),
      (findRun s.runs rid = none → s.resume dir inputs rid = .error .invalidRun) ∧
      (s.WF → rid.agent ≠ s.agentId → s.resume dir inputs rid = .error .invalidRun) ∧
      (findRun s.runs rid = some .completed →
        s.resume dir inputs rid = .error .invalidRun) ∧
      (∀ (t : Nat) (pr : (List NativeValue × RunId × Nat) × C_TrainingAgent),
        s.WF → s.runToken rid = some t → s.resume dir inputs rid = .ok pr →
        pr.1.2.2 ≠ t ∧ pr.2.runToken rid ≠ some t) := by
  intro s dir inputs rid
  refine ⟨?_, ?_, ?_, ?_⟩
  · intro h
    exact resume_not_suspended (Or.inl h)
  · intro hwf hag
    cases hf : findRun s.runs rid with
    | none => exact resume_not_suspended (Or.inl hf)
    | some e => exact absurd ((hwf _ (findRun_mem hf)).1) hag
  · intro h
    exact resume_not_suspended (Or.inr h)
  · intro t pr hwf htok h
    obtain ⟨rs, out, rest, heq, hdir, hlen, hrem, hpr⟩ := resume_ok_iff.mp h
    have ht : rs.token = t := by
      unfold C_TrainingAgent.runToken at htok
      rw [heq] at htok
      exact Option.some.inj htok
    have hlt : rs.token < s.nextToken := (hwf _ (findRun_mem heq)).2.2
    have hne : s.nextToken ≠ t := by
      rw [← ht]
      exact ne_of_gt hlt
    constructor
    · rw [hpr]
      exact hne
    · rw [hpr]
      show C_TrainingAgent.runToken _ rid ≠ some t
      unfold C_TrainingAgent.runToken
      have hset : findRun (setRun s.runs rid
          (if rest.isEmpty then RunEntry.completed
           else RunEntry.suspended
             { dir := dir, token := s.nextToken, yielded := out, remaining := rest }))
          rid =
          some (if rest.isEmpty then RunEntry.completed
           else RunEntry.suspended
             { dir := dir, token := s.nextToken, yielded := out, remaining := rest }) :=
        findRun_setRun_self heq
      rw [hset]
      cases rest with
      | nil =>
        simp only [List.isEmpty_nil, if_true]
        simp
      | cons a tl =>
        simp only [List.isEmpty_cons, if_false]
        intro hx
        exact hne (Option.some.inj hx)

/-- Witness for C4: an unknown identifier fails on a fresh agent; a foreign
agent's identifier fails; the completed run left by a finishing resume
rejects a second resume; and the concrete successful resume of the forward
run retires its token 0. -/
theorem claim_C4_token_single_use_witness :
    (findRun demoWorld.cstate.runs { agent := 7, idx := 0 } = none ∧
      demoWorld.cstate.resume .fwd [1] { agent := 7, idx := 0 } =
        .error .invalidRun) ∧
    demoForwardWorld.cstate.resume .fwd [1] { agent := 9, idx := 0 } =
      .error .invalidRun ∧
    (findRun demoPrResumeF.2.runs { agent := 7, idx := 0 } =
        some RunEntry.completed ∧
      demoPrResumeF.2.resume .fwd [9, 8] { agent := 7, idx := 0 } =
        .error .invalidRun) ∧
    (demoForwardWorld.cstate.WF ∧
      demoForwardWorld.cstate.runToken { agent := 7, idx := 0 } = some 0 ∧
      demoForwardWorld.cstate.resume .fwd [9, 8] { agent := 7, idx := 0 } =
        .ok demoPrResumeF ∧
      demoPrResumeF.1.2.2 ≠ 0 ∧
      demoPrResumeF.2.runToken { agent := 7, idx := 0 } ≠ some 0) :=
  ⟨⟨rfl, (claim_C4_token_single_use demoWorld.cstate .fwd [1]
      { agent := 7, idx := 0 }).1 rfl⟩,
   (claim_C4_token_single_use demoForwardWorld.cstate .fwd [1]
      { agent := 9, idx := 0 }).2.1 (by decide) (by decide),
   ⟨rfl, (claim_C4_token_single_use demoPrResumeF.2 .fwd [9, 8]
      { agent := 7, idx := 0 }).2.2.1 rfl⟩,
   ⟨by decide, rfl, rfl,
    (claim_C4_token_single_use demoForwardWorld.cstate .fwd [9, 8]
      { agent := 7, idx := 0 }).2.2.2 0 demoPrResumeF (by decide) rfl rfl⟩⟩

/-- C5: on a forward subgraph with no yield operator, `run_forward` returns
the complete output set together with a run identifier whose registered
state is terminal, and every subsequent `resume_forward` or
`resume_backward` call on that identifier — after any further sequence of
agent operations — fails with an invalid-run error. -/
theorem claim_C5_no_yield_terminal :
    ∀ (w : World) (iob : IOBinding) (ro : RunOptions),
      w.cstate.WF →
      w.cstate.model.forwardRest = [] →
      (w.run_forward iob ro).1.1 = w.cstate.model.forwardFirst.map OrtValue.mk ∧
      ∀ (ops : List AgentOp) (inputs : List NativeValue),
        (((w.run_forward iob ro).2).applyOps ops).resume_forward inputs
            ((w.run_forward iob ro).1.2.1) = .error .invalidRun ∧
        (((w.run_forward iob ro).2).applyOps ops).resume_backward inputs
            ((w.run_forward iob ro).1.2.1) = .error .invalidRun := by
  intro w iob ro hwf hempty
  refine ⟨rfl, ?_⟩
  intro ops inputs
  have hc : findRun ((w.run_forward iob ro).2).cstate.runs
      { agent := w.cstate.agentId, idx := w.cstate.nextRunId } =
      some RunEntry.completed := by
    show findRun ((({ agent := w.cstate.agentId, idx := w.cstate.nextRunId } : RunId),
        if w.cstate.model.forwardRest.isEmpty then RunEntry.completed
        else RunEntry.suspended
          { dir := .fwd, token := w.cstate.nextToken,
            yielded := w.cstate.model.forwardFirst,
            remaining := w.cstate.model.forwardRest }) :: w.cstate.runs)
      { agent := w.cstate.agentId, idx := w.cstate.nextRunId } = some RunEntry.completed
    rw [hempty]
    simp only [List.isEmpty_nil, if_true, findRun]
  have hwf1 : ((w.run_forward iob ro).2).cstate.WF := WF_run_forward hwf iob ro
  have hc2 := completed_applyOps hwf1 hc ops
  exact ⟨wrapper_resume_forward_error (resume_not_suspended (Or.inr hc2)),
    wrapper_resume_backward_error (run_backward_not_suspended (Or.inr hc2))⟩

/-- Witness for C5: the no-yield world returns its full outputs `[4, 5]`
wrapped, and after a further operation both resume calls on the returned run
identifier fail with invalid-run. -/
theorem claim_C5_no_yield_terminal_witness :
    demoNoYieldWorld.cstate.WF ∧
    demoNoYieldWorld.cstate.model.forwardRest = [] ∧
    (demoNoYieldWorld.run_forward demoNoYieldIOB ()).1.1 =
      demoNoYieldWorld.cstate.model.forwardFirst.map OrtValue.mk ∧
    (((demoNoYieldWorld.run_forward demoNoYieldIOB ()).2).applyOps
        [AgentOp.ioBindingCall]).resume_forward [0]
        ((demoNoYieldWorld.run_forward demoNoYieldIOB ()).1.2.1) =
      .error .invalidRun ∧
    (((demoNoYieldWorld.run_forward demoNoYieldIOB ()).2).applyOps
        [AgentOp.ioBindingCall]).resume_backward [0]
        ((demoNoYieldWorld.run_forward demoNoYieldIOB ()).1.2.1) =
      .error .invalidRun :=
  ⟨by decide, rfl,
   (claim_C5_no_yield_terminal demoNoYieldWorld demoNoYieldIOB () (by decide) rfl).1,
   ((claim_C5_no_yield_terminal demoNoYieldWorld demoNoYieldIOB () (by decide) rfl).2
     [AgentOp.ioBindingCall] [0]).1,
   ((claim_C5_no_yield_terminal demoNoYieldWorld demoNoYieldIOB () (by decide) rfl).2
     [AgentOp.ioBindingCall] [0]).2⟩
